import Mathlib

/-
Verification of the post-receive git hook pipeline
(app/api/controller/githook/post_receive.go).

The hook is embedded shallowly: the pure classification logic is translated
directly from the Go source; effectful collaborators (the pull-request store,
the URL provider, the repository access check) are passed in as explicit
values, and the events dispatched to the git reporter as well as the queries
issued to the pull-request store are collected as trace lists.
-/

set_option maxHeartbeats 1000000

namespace Gitness

/-- Modelled from the spec: `types.NilSHA` (not under src/) is the
distinguished all-zero SHA sentinel for "does not exist". -/
def NilSHA : String := "0000000000000000000000000000000000000000"

/-- Embeds Go `strings.HasPrefix s p`: whether `p` is a prefix of `s`.
All strings involved are ASCII, so byte-wise and character-wise prefix
coincide. -/
def strStartsWith (s p : String) : Bool := p.data.isPrefixOf s.data

/-- Prefix of references of type branch (post_receive.go line 33). -/
def gitReferenceNamePrefixBranch : String := "refs/heads/"

/-- Prefix of references of type tag (post_receive.go line 36). -/
def gitReferenceNamePrefixTag : String := "refs/tags/"

/-- Modelled from the spec: `githook.ReferenceUpdate` (not under src/),
`\x7bref, oldSHA, newSHA\x7d` describing one push-triggered transition. -/
structure ReferenceUpdate where
  Ref : String
  Old : String
  New : String
deriving DecidableEq

/-- Modelled from the spec: `githook.PostReceiveInput` (not under src/), the
complete ordered set of reference updates of one push. -/
structure PostReceiveInput where
  RefUpdates : List ReferenceUpdate
deriving DecidableEq

/-- Modelled from the spec: `githook.Output` (not under src/), the ordered
sequence of plain-text lines surfaced to the pushing user. -/
structure Output where
  Messages : List String
deriving DecidableEq

/-- One typed domain event handed to the git event reporter, carrying the
fields of the corresponding `events.*Payload` structure. -/
inductive Event where
  | branchCreated (RepoID PrincipalID : Int) (Ref SHA : String)
  | branchDeleted (RepoID PrincipalID : Int) (Ref SHA : String)
  | branchUpdated (RepoID PrincipalID : Int) (Ref OldSHA NewSHA : String) (Forced : Bool)
  | tagCreated (RepoID PrincipalID : Int) (Ref SHA : String)
  | tagDeleted (RepoID PrincipalID : Int) (Ref SHA : String)
  | tagUpdated (RepoID PrincipalID : Int) (Ref OldSHA NewSHA : String) (Forced : Bool)
deriving DecidableEq

/-- State filter of a pull-request query; `enum.PullReqStateOpen` is
`opened` here (`open` is reserved in Lean). -/
inductive PullReqState where
  | opened
  | merged
  | closed
deriving DecidableEq

/-- Result ordering of a pull-request query (`enum.OrderAsc` / `OrderDesc`). -/
inductive Order where
  | asc
  | desc
deriving DecidableEq

/-- Sort key of a pull-request query (`enum.PullReqSortCreated` etc.). -/
inductive PullReqSort where
  | created
  | edited
  | number
deriving DecidableEq

/-- The fields of a pull request read by the hook: number and title. -/
structure PullReq where
  Number : Int
  Title : String
deriving DecidableEq

/-- The filter passed to `pullreqStore.List`; `Sort` is reserved in Lean,
so the field is `SortBy`. -/
structure PullReqFilter where
  Page : Int
  Size : Int
  SourceRepoID : Int
  SourceBranch : String
  States : List PullReqState
  Order : Gitness.Order
  SortBy : PullReqSort
deriving DecidableEq

/-- The fields of `types.Repository` read by the hook. -/
structure Repository where
  ID : Int
  Path : String
  DefaultBranch : String
deriving DecidableEq

/-- The controller's effectful collaborators: the pull-request store lookup
(which may fail) and the two URL generators. -/
structure Env where
  pullreqStoreList : PullReqFilter → Except String (List PullReq)
  generateUIPRURL : String → Int → String
  generateUICompareURL : String → String → String → String

/-- Translation of `reportBranchEvent` (post_receive.go lines 89-120): the
switch on the SHA transition of a branch reference update. -/
def reportBranchEvent (repoID principalID : Int) (branchUpdate : ReferenceUpdate) : Event :=
  if branchUpdate.Old = NilSHA then
    Event.branchCreated repoID principalID branchUpdate.Ref branchUpdate.New
  else if branchUpdate.New = NilSHA then
    Event.branchDeleted repoID principalID branchUpdate.Ref branchUpdate.Old
  else
    Event.branchUpdated repoID principalID branchUpdate.Ref branchUpdate.Old branchUpdate.New false

/-- Translation of `reportTagEvent` (post_receive.go lines 122-154): the
switch on the SHA transition of a tag reference update; tag updates are
always reported as forced. -/
def reportTagEvent (repoID principalID : Int) (tagUpdate : ReferenceUpdate) : Event :=
  if tagUpdate.Old = NilSHA then
    Event.tagCreated repoID principalID tagUpdate.Ref tagUpdate.New
  else if tagUpdate.New = NilSHA then
    Event.tagDeleted repoID principalID tagUpdate.Ref tagUpdate.Old
  else
    Event.tagUpdated repoID principalID tagUpdate.Ref tagUpdate.Old tagUpdate.New true

/-- Translation of `reportReferenceEvents` (post_receive.go lines 71-87):
iterate over the updates in order, dispatch branch-prefixed updates to
`reportBranchEvent`, tag-prefixed ones to `reportTagEvent`, and ignore the
rest; the returned list is the dispatch trace. -/
def reportReferenceEvents (repoID principalID : Int) (inp : PostReceiveInput) : List Event :=
  inp.RefUpdates.filterMap fun refUpdate =>
    if strStartsWith refUpdate.Ref gitReferenceNamePrefixBranch then
      some (reportBranchEvent repoID principalID refUpdate)
    else if strStartsWith refUpdate.Ref gitReferenceNamePrefixTag then
      some (reportTagEvent repoID principalID refUpdate)
    else
      none

/-- The message block of post_receive.go lines 196-204: a header line
followed, for each listed PR in order, by a number/title line and an
indented UI-URL line. -/
def openPRMessages (c : Env) (repo : Repository) (branchName : String)
    (prs : List PullReq) : List String :=
  ("Branch \x27" ++ branchName ++ "\x27 has open PRs:") ::
    prs.flatMap fun pr =>
      ["  (#" ++ toString pr.Number ++ ") " ++ pr.Title,
       "    " ++ c.generateUIPRURL repo.Path pr.Number]

/-- Translation of `handlePRMessaging` (post_receive.go lines 158-214):
skip batch pushes, non-branch refs and branch deletions; otherwise query the
pull-request store and append either the open-PR listing or the
create-a-new-PR suggestion. The second component is the trace of queries
issued to the store. -/
def handlePRMessaging (c : Env) (repo : Repository) (inp : PostReceiveInput)
    (out : Output) : Output × List PullReqFilter :=
  match inp.RefUpdates with
  | [refUpdate] =>
    if !strStartsWith refUpdate.Ref gitReferenceNamePrefixBranch
        || refUpdate.New == NilSHA then
      (out, [])
    else
      let branchName := refUpdate.Ref.drop gitReferenceNamePrefixBranch.length
      let prFilter : PullReqFilter :=
        { Page := 1, Size := 2, SourceRepoID := repo.ID, SourceBranch := branchName,
          States := [PullReqState.opened], Order := Order.asc, SortBy := PullReqSort.created }
      match c.pullreqStoreList prFilter with
      | Except.error _ => (out, [prFilter])
      | Except.ok prs =>
        if 0 < prs.length then
          ({ Messages := out.Messages ++ openPRMessages c repo branchName prs }, [prFilter])
        else
          ({ Messages := out.Messages ++
              ["Create a new PR for branch \x27" ++ branchName ++ "\x27",
               "  " ++ c.generateUICompareURL repo.Path repo.DefaultBranch branchName] },
           [prFilter])
  | _ => (out, [])

/-- The observable outcome of one successful hook call: the output handed
back to git, the dispatched events and the store queries issued. -/
structure PostReceiveResult where
  out : Output
  events : List Event
  prQueries : List PullReqFilter
deriving DecidableEq

/-- Translation of `PostReceive` (post_receive.go lines 40-66). The result
of `getRepoCheckAccess` (defined outside src/; per the spec the permission
check is delegated and may reject) is passed in as an `Except` value. -/
def PostReceive (c : Env) (getRepoCheckAccess : Except String Repository)
    (repoID principalID : Int) (inp : Option PostReceiveInput) :
    Except String PostReceiveResult :=
  match inp with
  | none => Except.error "input is nil"
  | some inp =>
    match getRepoCheckAccess with
    | Except.error err => Except.error err
    | Except.ok repo =>
      let events := reportReferenceEvents repoID principalID inp
      let out : Output := { Messages := [] }
      let res := handlePRMessaging c repo inp out
      Except.ok { out := res.1, events := events, prQueries := res.2 }

/-! Helper lemmas about the prefix test and branch-name extraction. -/

theorem strStartsWith_append (p b : String) : strStartsWith (p ++ b) p = true := by
  simp [strStartsWith, List.isPrefixOf_iff_prefix]

theorem strStartsWith_tag_not_branch (t : String) :
    strStartsWith (gitReferenceNamePrefixTag ++ t) gitReferenceNamePrefixBranch = false := by
  rw [Bool.eq_false_iff]
  intro h
  rw [strStartsWith, List.isPrefixOf_iff_prefix] at h
  rw [String.data_append] at h
  have h2 : gitReferenceNamePrefixTag.data <+:
      gitReferenceNamePrefixTag.data ++ t.data := List.prefix_append _ _
  have hle : gitReferenceNamePrefixTag.data.length ≤
      gitReferenceNamePrefixBranch.data.length := by decide
  have h3 := List.prefix_of_prefix_length_le h2 h hle
  exact absurd h3 (by decide)

theorem append_drop_length (p b : String) : (p ++ b).drop p.length = b := by
  apply String.ext
  rw [String.data_drop, String.data_append]
  exact List.drop_left' rfl

/-! Case lemmas for `handlePRMessaging`, one per early return / branch of the
source function. -/

theorem handlePRMessaging_not_single (c : Env) (repo : Repository)
    (inp : PostReceiveInput) (out : Output) (h : inp.RefUpdates.length ≠ 1) :
    handlePRMessaging c repo inp out = (out, []) := by
  unfold handlePRMessaging
  match hm : inp.RefUpdates with
  | [] => rfl
  | [u] => exact absurd (by simp [hm]) h
  | u :: v :: rest => rfl

theorem handlePRMessaging_not_branch (c : Env) (repo : Repository)
    (u : ReferenceUpdate) (out : Output)
    (h : strStartsWith u.Ref gitReferenceNamePrefixBranch = false) :
    handlePRMessaging c repo { RefUpdates := [u] } out = (out, []) := by
  unfold handlePRMessaging
  simp [h]

theorem handlePRMessaging_deletion (c : Env) (repo : Repository)
    (u : ReferenceUpdate) (out : Output) (h : u.New = NilSHA) :
    handlePRMessaging c repo { RefUpdates := [u] } out = (out, []) := by
  unfold handlePRMessaging
  simp [h]

/-- The filter built by `handlePRMessaging` for a given repository and
branch name. -/
def prListFilter (repo : Repository) (branchName : String) : PullReqFilter :=
  { Page := 1, Size := 2, SourceRepoID := repo.ID, SourceBranch := branchName,
    States := [PullReqState.opened], Order := Order.asc, SortBy := PullReqSort.created }

theorem handlePRMessaging_query (c : Env) (repo : Repository)
    (u : ReferenceUpdate) (out : Output)
    (hb : strStartsWith u.Ref gitReferenceNamePrefixBranch = true)
    (hn : u.New ≠ NilSHA) :
    handlePRMessaging c repo { RefUpdates := [u] } out =
      (let branchName := u.Ref.drop gitReferenceNamePrefixBranch.length
       match c.pullreqStoreList (prListFilter repo branchName) with
       | Except.error _ => (out, [prListFilter repo branchName])
       | Except.ok prs =>
         if 0 < prs.length then
           ({ Messages := out.Messages ++ openPRMessages c repo branchName prs },
            [prListFilter repo branchName])
         else
           ({ Messages := out.Messages ++
               ["Create a new PR for branch \x27" ++ branchName ++ "\x27",
                "  " ++ c.generateUICompareURL repo.Path repo.DefaultBranch branchName] },
            [prListFilter repo branchName])) := by
  unfold handlePRMessaging prListFilter
  simp [hb, hn]

/-! Concrete fixtures used by witness theorems. -/

/-- An environment whose pull-request lookup finds no open PR. -/
def env0 : Env :=
  { pullreqStoreList := fun _ => Except.ok [],
    generateUIPRURL := fun path n => "https://host/" ++ path ++ "/pulls/" ++ toString n,
    generateUICompareURL := fun path base target =>
      "https://host/" ++ path ++ "/compare/" ++ base ++ "..." ++ target }

/-- An environment whose pull-request lookup finds one open PR. -/
def envOnePR : Env :=
  { env0 with pullreqStoreList := fun _ => Except.ok [{ Number := 42, Title := "Add X" }] }

/-- An environment whose pull-request lookup always fails. -/
def envFail : Env :=
  { env0 with pullreqStoreList := fun _ => Except.error "db down" }

/-- A concrete repository. -/
def repo0 : Repository := { ID := 7, Path := "space/repo", DefaultBranch := "main" }

/-- A concrete push input: one branch update creating `refs/heads/feature`. -/
def inp0 : PostReceiveInput :=
  { RefUpdates := [{ Ref := "refs/heads/feature", Old := NilSHA, New := "abc123" }] }

/-! Per-event helper lemmas on the forced flag. -/

theorem reportBranchEvent_forced (repoID principalID : Int) (u : ReferenceUpdate) :
    (∀ a b r o n f, reportBranchEvent repoID principalID u = Event.tagUpdated a b r o n f →
      f = true) ∧
    (∀ a b r o n f, reportBranchEvent repoID principalID u = Event.branchUpdated a b r o n f →
      f = false) := by
  unfold reportBranchEvent
  constructor <;> intro a b r o n f hf <;>
    (split at hf <;> (try split at hf) <;> simp_all)

theorem reportTagEvent_forced (repoID principalID : Int) (u : ReferenceUpdate) :
    (∀ a b r o n f, reportTagEvent repoID principalID u = Event.tagUpdated a b r o n f →
      f = true) ∧
    (∀ a b r o n f, reportTagEvent repoID principalID u = Event.branchUpdated a b r o n f →
      f = false) := by
  unfold reportTagEvent
  constructor <;> intro a b r o n f hf <;>
    (split at hf <;> (try split at hf) <;> simp_all)

/-! The claim theorems. -/

/-- C1: every reference update is classified by its SHA transition —
`old == NilSHA` gives Created, else `new == NilSHA` gives Deleted, else
Updated — for branch refs and tag refs alike, and the push dispatches
exactly one domain event per branch- or tag-prefixed update. -/
theorem classification_by_sha_transition (repoID principalID : Int)
    (u : ReferenceUpdate) (inp : PostReceiveInput) :
    reportBranchEvent repoID principalID u =
      (if u.Old = NilSHA then Event.branchCreated repoID principalID u.Ref u.New
       else if u.New = NilSHA then Event.branchDeleted repoID principalID u.Ref u.Old
       else Event.branchUpdated repoID principalID u.Ref u.Old u.New false) ∧
    reportTagEvent repoID principalID u =
      (if u.Old = NilSHA then Event.tagCreated repoID principalID u.Ref u.New
       else if u.New = NilSHA then Event.tagDeleted repoID principalID u.Ref u.Old
       else Event.tagUpdated repoID principalID u.Ref u.Old u.New true) ∧
    (reportReferenceEvents repoID principalID inp).length =
      (inp.RefUpdates.filter fun v =>
        strStartsWith v.Ref gitReferenceNamePrefixBranch
          || strStartsWith v.Ref gitReferenceNamePrefixTag).length := by
  refine ⟨rfl, rfl, ?_⟩
  obtain ⟨l⟩ := inp
  unfold reportReferenceEvents
  induction l with
  | nil => rfl
  | cons hd tl ih =>
    simp only [List.filterMap_cons, List.filter_cons]
    by_cases hb : strStartsWith hd.Ref gitReferenceNamePrefixBranch
    · simpa [hb] using ih
    · by_cases ht : strStartsWith hd.Ref gitReferenceNamePrefixTag
      · simpa [hb, ht] using ih
      · simpa [hb, ht] using ih

/-- C4: every TagUpdated event dispatched by the hook carries Forced=true
and every BranchUpdated event carries Forced=false. -/
theorem forced_flag_asymmetry (repoID principalID : Int) (inp : PostReceiveInput) :
    ∀ e ∈ reportReferenceEvents repoID principalID inp,
      (∀ a b r o n f, e = Event.tagUpdated a b r o n f → f = true) ∧
      (∀ a b r o n f, e = Event.branchUpdated a b r o n f → f = false) := by
  intro e he
  unfold reportReferenceEvents at he
  rw [List.mem_filterMap] at he
  obtain ⟨u, -, hu⟩ := he
  split at hu
  · cases hu
    exact reportBranchEvent_forced repoID principalID u
  · split at hu
    · cases hu
      exact reportTagEvent_forced repoID principalID u
    · cases hu

/-- C4 witness: the forced flags at a concrete tag-update push. -/
theorem forced_flag_asymmetry_witness :
    (∀ a b r o n f,
      Event.tagUpdated 1 2 "refs/tags/v1" "aa" "bb" true = Event.tagUpdated a b r o n f →
        f = true) ∧
    (∀ a b r o n f,
      Event.tagUpdated 1 2 "refs/tags/v1" "aa" "bb" true = Event.branchUpdated a b r o n f →
        f = false) :=
  forced_flag_asymmetry 1 2
    { RefUpdates := [{ Ref := "refs/tags/v1", Old := "aa", New := "bb" }] }
    (Event.tagUpdated 1 2 "refs/tags/v1" "aa" "bb" true) (by decide)

/-- C9: a reference update whose old and new SHA are both NilSHA is
classified as Created (the old-is-nil case is tested first) and the
dispatched Created event carries SHA = NilSHA, for branches and tags. -/
theorem bothNil_classified_created (repoID principalID : Int) (u : ReferenceUpdate)
    (hOld : u.Old = NilSHA) (hNew : u.New = NilSHA) :
    reportBranchEvent repoID principalID u =
      Event.branchCreated repoID principalID u.Ref NilSHA ∧
    reportTagEvent repoID principalID u =
      Event.tagCreated repoID principalID u.Ref NilSHA := by
  unfold reportBranchEvent reportTagEvent
  simp [hOld, hNew]

/-- C9 witness: both-nil classification at a concrete update. -/
theorem bothNil_classified_created_witness :
    reportBranchEvent 1 2 { Ref := "refs/heads/b", Old := NilSHA, New := NilSHA } =
      Event.branchCreated 1 2 "refs/heads/b" NilSHA ∧
    reportTagEvent 1 2 { Ref := "refs/heads/b", Old := NilSHA, New := NilSHA } =
      Event.tagCreated 1 2 "refs/heads/b" NilSHA :=
  bothNil_classified_created 1 2 { Ref := "refs/heads/b", Old := NilSHA, New := NilSHA } rfl rfl

theorem handlePRMessaging_query_trace (c : Env) (repo : Repository)
    (u : ReferenceUpdate) (out : Output)
    (hb : strStartsWith u.Ref gitReferenceNamePrefixBranch = true)
    (hn : u.New ≠ NilSHA) :
    (handlePRMessaging c repo { RefUpdates := [u] } out).2 =
      [prListFilter repo (u.Ref.drop gitReferenceNamePrefixBranch.length)] := by
  rw [handlePRMessaging_query c repo u out hb hn]
  cases hres : c.pullreqStoreList
      (prListFilter repo (u.Ref.drop gitReferenceNamePrefixBranch.length)) with
  | error e => simp [hres]
  | ok prs => by_cases hp : 0 < prs.length <;> simp [hres, hp]

/-- C2: PR-messaging runs (issues its pull-request query) precisely when the
push contains exactly one reference update, that update is branch-prefixed,
and its new SHA is not NilSHA; in every other case the hook output is left
untouched. -/
theorem pr_messaging_runs_iff (c : Env) (repo : Repository)
    (inp : PostReceiveInput) (out : Output) :
    ((handlePRMessaging c repo inp out).2 ≠ [] ↔
      ∃ u, inp.RefUpdates = [u] ∧
        strStartsWith u.Ref gitReferenceNamePrefixBranch = true ∧ u.New ≠ NilSHA) ∧
    ((handlePRMessaging c repo inp out).2 = [] →
      handlePRMessaging c repo inp out = (out, [])) := by
  obtain ⟨l⟩ := inp
  rcases l with - | ⟨u, - | ⟨v, rest⟩⟩
  · rw [handlePRMessaging_not_single c repo { RefUpdates := [] } out (by simp)]
    refine ⟨⟨fun h => absurd rfl h, ?_⟩, fun _ => rfl⟩
    rintro ⟨u, hu, -, -⟩
    exact absurd hu (by simp)
  · by_cases hb : strStartsWith u.Ref gitReferenceNamePrefixBranch
    · by_cases hn : u.New = NilSHA
      · rw [handlePRMessaging_deletion c repo u out hn]
        refine ⟨⟨fun h => absurd rfl h, ?_⟩, fun _ => rfl⟩
        rintro ⟨u2, hu2, -, hn2⟩
        obtain rfl : u = u2 := by simpa using hu2
        exact absurd hn hn2
      · have htr := handlePRMessaging_query_trace c repo u out hb hn
        refine ⟨⟨fun _ => ⟨u, rfl, hb, hn⟩, fun _ => ?_⟩, fun h2 => ?_⟩
        · rw [htr]
          simp
        · rw [htr] at h2
          exact absurd h2 (by simp)
    · rw [handlePRMessaging_not_branch c repo u out (by simpa using hb)]
      refine ⟨⟨fun h => absurd rfl h, ?_⟩, fun _ => rfl⟩
      rintro ⟨u2, hu2, hb2, -⟩
      obtain rfl : u = u2 := by simpa using hu2
      exact absurd hb2 (by simpa using hb)
  · rw [handlePRMessaging_not_single c repo { RefUpdates := u :: v :: rest } out (by simp)]
    refine ⟨⟨fun h => absurd rfl h, ?_⟩, fun _ => rfl⟩
    rintro ⟨u2, hu2, -, -⟩
    exact absurd hu2 (by simp)

/-- C2 witness: a two-ref push leaves the output untouched and issues no
pull-request query. -/
theorem pr_messaging_runs_iff_witness :
    handlePRMessaging env0 repo0
        { RefUpdates := [{ Ref := "refs/heads/a", Old := NilSHA, New := "abc" },
                         { Ref := "refs/heads/b", Old := NilSHA, New := "def" }] }
        { Messages := [] } = ({ Messages := [] }, []) :=
  (pr_messaging_runs_iff env0 repo0
    { RefUpdates := [{ Ref := "refs/heads/a", Old := NilSHA, New := "abc" },
                     { Ref := "refs/heads/b", Old := NilSHA, New := "def" }] }
    { Messages := [] }).2 rfl

/-- C3 counterexample: a non-nil input on which the hook call still returns
an error, namely when the repository access check fails. -/
theorem postReceive_nonNil_error_counterexample :
    (some inp0 ≠ (none : Option PostReceiveInput)) ∧
    PostReceive env0 (Except.error "access check failed") 1 2 (some inp0) =
      Except.error "access check failed" :=
  ⟨by simp, rfl⟩

/-- C3 (amended): the hook call returns an error precisely when the input is
nil or the repository access check fails; for non-nil input with a
successful access check it returns a non-error output whatever the
collaborators do. -/
theorem postReceive_error_iff (c : Env) (acc : Except String Repository)
    (repoID principalID : Int) (inp : Option PostReceiveInput) :
    ((∃ e, PostReceive c acc repoID principalID inp = Except.error e) ↔
      (inp = none ∨ ∃ e, acc = Except.error e)) ∧
    (∀ i repo, inp = some i → acc = Except.ok repo →
      ∃ r, PostReceive c acc repoID principalID inp = Except.ok r) := by
  cases inp with
  | none =>
    refine ⟨⟨fun _ => Or.inl rfl, fun _ => ⟨"input is nil", rfl⟩⟩, ?_⟩
    intro i repo hi
    exact absurd hi (by simp)
  | some i =>
    cases acc with
    | error e =>
      refine ⟨⟨fun _ => Or.inr ⟨e, rfl⟩, fun _ => ⟨e, rfl⟩⟩, ?_⟩
      intro i2 repo hi hacc
      exact absurd hacc (by simp)
    | ok repo =>
      constructor
      · constructor
        · rintro ⟨e, he⟩
          exact absurd he (by simp [PostReceive])
        · rintro (h | ⟨e, he⟩)
          · exact absurd h (by simp)
          · exact absurd he (by simp)
      · intro i2 repo2 hi hacc
        exact ⟨_, rfl⟩

/-- C3 amended witness: with non-nil input and a successful access check the
call returns ok. -/
theorem postReceive_error_iff_witness :
    ∃ r, PostReceive env0 (Except.ok repo0) 1 2 (some inp0) = Except.ok r :=
  (postReceive_error_iff env0 (Except.ok repo0) 1 2 (some inp0)).2 inp0 repo0 rfl rfl

theorem openPRMessages_length (c : Env) (repo : Repository) (branchName : String)
    (prs : List PullReq) :
    (openPRMessages c repo branchName prs).length = 2 * prs.length + 1 := by
  unfold openPRMessages
  induction prs with
  | nil => rfl
  | cons hd tl ih =>
    simp only [List.flatMap_cons, List.length_cons, List.length_append,
      List.length_nil] at ih ⊢
    omega

/-- C5: a push updating exactly one branch ref to a non-nil SHA, when the
store reports no open PR for that branch, yields exactly the two-line
create-a-new-PR block: the suggestion line and two spaces plus the compare
URL for defaultBranch..branch. -/
theorem postReceive_new_branch_create_pr (c : Env) (repo : Repository)
    (repoID principalID : Int) (b oldSHA newSHA : String)
    (hnew : newSHA ≠ NilSHA)
    (hpr : c.pullreqStoreList (prListFilter repo b) = Except.ok []) :
    ∃ r, PostReceive c (Except.ok repo) repoID principalID
        (some { RefUpdates :=
          [{ Ref := gitReferenceNamePrefixBranch ++ b, Old := oldSHA, New := newSHA }] }) =
        Except.ok r ∧
      r.out.Messages =
        ["Create a new PR for branch \x27" ++ b ++ "\x27",
         "  " ++ c.generateUICompareURL repo.Path repo.DefaultBranch b] := by
  have hb : strStartsWith (gitReferenceNamePrefixBranch ++ b)
      gitReferenceNamePrefixBranch = true := strStartsWith_append _ _
  have hh := handlePRMessaging_query c repo
    { Ref := gitReferenceNamePrefixBranch ++ b, Old := oldSHA, New := newSHA }
    { Messages := [] } hb hnew
  rw [append_drop_length] at hh
  simp only [hpr, List.length_nil, Nat.lt_irrefl, if_false, List.nil_append] at hh
  refine ⟨_, rfl, ?_⟩
  rw [hh]

/-- C5 witness: the create-a-new-PR block at a concrete push. -/
theorem postReceive_new_branch_create_pr_witness :
    ∃ r, PostReceive env0 (Except.ok repo0) 1 2
        (some { RefUpdates :=
          [{ Ref := gitReferenceNamePrefixBranch ++ "feature",
             Old := NilSHA, New := "abc123" }] }) =
        Except.ok r ∧
      r.out.Messages =
        ["Create a new PR for branch \x27" ++ "feature" ++ "\x27",
         "  " ++ env0.generateUICompareURL repo0.Path repo0.DefaultBranch "feature"] :=
  postReceive_new_branch_create_pr env0 repo0 1 2 "feature" NilSHA "abc123" (by decide) rfl

/-- C6: a push updating exactly one branch ref to a non-nil SHA, when the
store reports open PRs, yields exactly the header line followed by a
number/title line and an indented UI-URL line per listed PR, so 2N+1 lines
for N listed PRs. -/
theorem postReceive_open_prs (c : Env) (repo : Repository)
    (repoID principalID : Int) (b oldSHA newSHA : String) (prs : List PullReq)
    (hnew : newSHA ≠ NilSHA) (hne : prs ≠ [])
    (hpr : c.pullreqStoreList (prListFilter repo b) = Except.ok prs) :
    ∃ r, PostReceive c (Except.ok repo) repoID principalID
        (some { RefUpdates :=
          [{ Ref := gitReferenceNamePrefixBranch ++ b, Old := oldSHA, New := newSHA }] }) =
        Except.ok r ∧
      r.out.Messages =
        ("Branch \x27" ++ b ++ "\x27 has open PRs:") ::
          (prs.flatMap fun pr =>
            ["  (#" ++ toString pr.Number ++ ") " ++ pr.Title,
             "    " ++ c.generateUIPRURL repo.Path pr.Number]) ∧
      r.out.Messages.length = 2 * prs.length + 1 := by
  have hb : strStartsWith (gitReferenceNamePrefixBranch ++ b)
      gitReferenceNamePrefixBranch = true := strStartsWith_append _ _
  have hpos : 0 < prs.length := List.length_pos.mpr hne
  have hh := handlePRMessaging_query c repo
    { Ref := gitReferenceNamePrefixBranch ++ b, Old := oldSHA, New := newSHA }
    { Messages := [] } hb hnew
  rw [append_drop_length] at hh
  simp only [hpr, hpos, if_true, List.nil_append] at hh
  refine ⟨_, rfl, ?_, ?_⟩
  · rw [hh]
    rfl
  · rw [hh]
    exact openPRMessages_length c repo b prs

/-- C6 witness: the open-PR listing at a concrete push with PR #42. -/
theorem postReceive_open_prs_witness :
    ∃ r, PostReceive envOnePR (Except.ok repo0) 1 2
        (some { RefUpdates :=
          [{ Ref := gitReferenceNamePrefixBranch ++ "feature",
             Old := NilSHA, New := "abc123" }] }) =
        Except.ok r ∧
      r.out.Messages =
        ("Branch \x27" ++ "feature" ++ "\x27 has open PRs:") ::
          ([({ Number := 42, Title := "Add X" } : PullReq)].flatMap fun pr =>
            ["  (#" ++ toString pr.Number ++ ") " ++ pr.Title,
             "    " ++ envOnePR.generateUIPRURL repo0.Path pr.Number]) ∧
      r.out.Messages.length = 2 * [({ Number := 42, Title := "Add X" } : PullReq)].length + 1 :=
  postReceive_open_prs envOnePR repo0 1 2 "feature" NilSHA "abc123"
    [{ Number := 42, Title := "Add X" }] (by decide) (by simp) rfl

/-- C7: a push whose single update deletes a tag dispatches exactly one
TagDeleted event carrying the old SHA, and produces no PR-messaging output
and no pull-request query. -/
theorem postReceive_tag_delete_event (c : Env) (repo : Repository)
    (repoID principalID : Int) (t oldSHA : String) (hold : oldSHA ≠ NilSHA) :
    ∃ r, PostReceive c (Except.ok repo) repoID principalID
        (some { RefUpdates :=
          [{ Ref := gitReferenceNamePrefixTag ++ t, Old := oldSHA, New := NilSHA }] }) =
        Except.ok r ∧
      r.events =
        [Event.tagDeleted repoID principalID (gitReferenceNamePrefixTag ++ t) oldSHA] ∧
      r.out.Messages = [] ∧ r.prQueries = [] := by
  have hb := strStartsWith_tag_not_branch t
  have ht := strStartsWith_append gitReferenceNamePrefixTag t
  have hh := handlePRMessaging_deletion c repo
    { Ref := gitReferenceNamePrefixTag ++ t, Old := oldSHA, New := NilSHA }
    { Messages := [] } rfl
  refine ⟨_, rfl, ?_, ?_, ?_⟩
  · simp [reportReferenceEvents, hb, ht, reportTagEvent, hold]
  · rw [hh]
  · rw [hh]

/-- C7 witness: the TagDeleted dispatch at a concrete tag-deleting push. -/
theorem postReceive_tag_delete_event_witness :
    ∃ r, PostReceive env0 (Except.ok repo0) 1 2
        (some { RefUpdates :=
          [{ Ref := gitReferenceNamePrefixTag ++ "v1.0",
             Old := "abc123", New := NilSHA }] }) =
        Except.ok r ∧
      r.events = [Event.tagDeleted 1 2 (gitReferenceNamePrefixTag ++ "v1.0") "abc123"] ∧
      r.out.Messages = [] ∧ r.prQueries = [] :=
  postReceive_tag_delete_event env0 repo0 1 2 "v1.0" "abc123" (by decide)

/-- C8: when every pull-request lookup fails, the hook logs and continues —
the output carries no messages and the call still returns ok. -/
theorem pr_lookup_failure_no_messages (c : Env) (repo : Repository)
    (repoID principalID : Int) (inp : PostReceiveInput)
    (hfail : ∀ f, ∃ e, c.pullreqStoreList f = Except.error e) :
    ∃ r, PostReceive c (Except.ok repo) repoID principalID (some inp) = Except.ok r ∧
      r.out.Messages = [] := by
  refine ⟨_, rfl, ?_⟩
  obtain ⟨l⟩ := inp
  rcases l with - | ⟨u, - | ⟨v, rest⟩⟩
  · rw [handlePRMessaging_not_single c repo { RefUpdates := [] } { Messages := [] } (by simp)]
  · by_cases hb : strStartsWith u.Ref gitReferenceNamePrefixBranch
    · by_cases hn : u.New = NilSHA
      · rw [handlePRMessaging_deletion c repo u { Messages := [] } hn]
      · have hh := handlePRMessaging_query c repo u { Messages := [] } hb hn
        obtain ⟨e, he⟩ :=
          hfail (prListFilter repo (u.Ref.drop gitReferenceNamePrefixBranch.length))
        rw [hh]
        simp [he]
    · rw [handlePRMessaging_not_branch c repo u { Messages := [] } (by simpa using hb)]
  · rw [handlePRMessaging_not_single c repo { RefUpdates := u :: v :: rest }
      { Messages := [] } (by simp)]

/-- C8 witness: with an always-failing store the hook still returns ok with
no messages. -/
theorem pr_lookup_failure_no_messages_witness :
    ∃ r, PostReceive envFail (Except.ok repo0) 1 2 (some inp0) = Except.ok r ∧
      r.out.Messages = [] :=
  pr_lookup_failure_no_messages envFail repo0 1 2 inp0 (fun _ => ⟨"db down", rfl⟩)

/-- C10: every pull-request query issued by PR-messaging asks for page 1,
size 2, open state, ascending by creation; hence as long as the store honors
the size bound, the appended block is at most five message lines. -/
theorem pr_lookup_bounds (c : Env) (repo : Repository)
    (inp : PostReceiveInput) (out : Output) :
    (∀ q ∈ (handlePRMessaging c repo inp out).2,
      q.Page = 1 ∧ q.Size = 2 ∧ q.States = [PullReqState.opened] ∧
        q.Order = Order.asc ∧ q.SortBy = PullReqSort.created) ∧
    ((∀ f prs, c.pullreqStoreList f = Except.ok prs → prs.length ≤ 2) →
      (handlePRMessaging c repo inp out).1.Messages.length ≤ out.Messages.length + 5) := by
  obtain ⟨l⟩ := inp
  rcases l with - | ⟨u, - | ⟨v, rest⟩⟩
  · rw [handlePRMessaging_not_single c repo { RefUpdates := [] } out (by simp)]
    exact ⟨fun q hq => absurd hq (by simp), fun _ => Nat.le_add_right _ 5⟩
  · by_cases hb : strStartsWith u.Ref gitReferenceNamePrefixBranch
    · by_cases hn : u.New = NilSHA
      · rw [handlePRMessaging_deletion c repo u out hn]
        exact ⟨fun q hq => absurd hq (by simp), fun _ => Nat.le_add_right _ 5⟩
      · have hh := handlePRMessaging_query c repo u out hb hn
        rw [hh]
        cases hres : c.pullreqStoreList
            (prListFilter repo (u.Ref.drop gitReferenceNamePrefixBranch.length)) with
        | error e =>
          constructor
          · intro q hq
            simp only [hres] at hq
            simp at hq
            subst hq
            exact ⟨rfl, rfl, rfl, rfl, rfl⟩
          · intro _
            simp [hres]
        | ok prs =>
          by_cases hp : 0 < prs.length
          · constructor
            · intro q hq
              simp only [hres, hp, if_true] at hq
              simp at hq
              subst hq
              exact ⟨rfl, rfl, rfl, rfl, rfl⟩
            · intro hbound
              have hlen := hbound _ prs hres
              simp only [hres, hp, if_true]
              simp [openPRMessages_length]
              omega
          · constructor
            · intro q hq
              simp only [hres, hp, if_false] at hq
              simp at hq
              subst hq
              exact ⟨rfl, rfl, rfl, rfl, rfl⟩
            · intro _
              simp only [hres, hp, if_false]
              simp
    · rw [handlePRMessaging_not_branch c repo u out (by simpa using hb)]
      exact ⟨fun q hq => absurd hq (by simp), fun _ => Nat.le_add_right _ 5⟩
  · rw [handlePRMessaging_not_single c repo { RefUpdates := u :: v :: rest } out (by simp)]
    exact ⟨fun q hq => absurd hq (by simp), fun _ => Nat.le_add_right _ 5⟩

/-- C10 witness: the five-line bound at a concrete push against a
size-honoring store. -/
theorem pr_lookup_bounds_witness :
    (handlePRMessaging envOnePR repo0 inp0 { Messages := [] }).1.Messages.length ≤
      ({ Messages := [] } : Output).Messages.length + 5 :=
  (pr_lookup_bounds envOnePR repo0 inp0 { Messages := [] }).2 (by
    intro f prs h
    have h2 : Except.ok [({ Number := 42, Title := "Add X" } : PullReq)] =
        Except.ok prs := h
    obtain rfl : [({ Number := 42, Title := "Add X" } : PullReq)] = prs := by
      simpa using h2
    simp)

end Gitness
